import Mathlib

/-!
Shallow embedding of the LMSR automated-market-maker core of this repository
(src/AMM/LMSR/lmsr.py, src/AMM/LMSR/fixed_cap.py, src/AMM/LMSR/strict_profit.py).

Python floats are modelled as real numbers; `round(x, 2)` is modelled as
rounding `100 * x` to the nearest integer (Mathlib's `round`, which rounds
half up; Python rounds half to even, and every concrete value rounded in the
proofs below is bounded away from a tie, so the two agree there).
The fixed iteration counts (60 bracket doublings, 60 bisection steps) are
modelled by structural recursion on a natural number.
-/

namespace QuantLab

/-- Side of a binary outcome contract (`Side` in lmsr.py). -/
inductive Side where
  | YES : Side
  | NO : Side
deriving DecidableEq, Repr

/-- Order record (`Order` dataclass in lmsr.py / fixed_cap.py). -/
structure Order where
  contract_id : ℤ
  stake : ℝ
  price : ℝ
  expected_cashout : ℝ
  side : Side
  fees : ℝ

/-- Python `round(x, prec=2)` (`round_figure` in all three variants):
round to two decimal places. -/
noncomputable def round_figure (x : ℝ) : ℝ :=
  ((round (x * 100) : ℤ) : ℝ) / 100

/-- The log-sum-exp stabilized LMSR cost function
(`LMSRContract.cost` in lmsr.py line 91, identical in the other variants):
cost(qT, qF) = b * (m / b + log(exp((qT - m) / b) + exp((qF - m) / b))),
m = max(qT, qF). -/
noncomputable def cost (b qT qF : ℝ) : ℝ :=
  b * (max qT qF / b +
    Real.log (Real.exp ((qT - max qT qF) / b) + Real.exp ((qF - max qT qF) / b)))

/-- Marginal YES price (`LMSRContract.price` in lmsr.py line 96):
exp_T / (exp_T + exp_F) with the same max-subtraction. -/
noncomputable def priceYes (b qT qF : ℝ) : ℝ :=
  Real.exp ((qT - max qT qF) / b) /
    (Real.exp ((qT - max qT qF) / b) + Real.exp ((qF - max qT qF) / b))

/-- Marginal NO price (`LMSRContract.price` in lmsr.py line 96). -/
noncomputable def priceNo (b qT qF : ℝ) : ℝ :=
  Real.exp ((qF - max qT qF) / b) /
    (Real.exp ((qT - max qT qF) / b) + Real.exp ((qF - max qT qF) / b))

/-- Exponential bracket expansion (the first loop of `max_stake`,
`sell` and `solve_delta_q`): repeatedly check `f high >= target`,
doubling `high` on failure.  The Python loop `for _ in range(60)` with a
`break` corresponds to fuel 60. -/
noncomputable def bracketIter (f : ℝ → ℝ) (target : ℝ) : ℕ → ℝ → ℝ
  | 0, high => high
  | n + 1, high => if target ≤ f high then high else bracketIter f target n (high * 2)

/-- One bisection step (body of the second loop of `max_stake`, `sell`
and `solve_delta_q`): mid = 0.5 * (low + high); if `f mid < target` move
`low` up, else move `high` down. -/
noncomputable def bisectStep (f : ℝ → ℝ) (target : ℝ) (p : ℝ × ℝ) : ℝ × ℝ :=
  if f (0.5 * (p.1 + p.2)) < target then (0.5 * (p.1 + p.2), p.2)
  else (p.1, 0.5 * (p.1 + p.2))

/-- The bisection loop, `n` iterations of `bisectStep`. -/
noncomputable def bisectIter (f : ℝ → ℝ) (target : ℝ) : ℕ → ℝ × ℝ → ℝ × ℝ
  | 0, p => p
  | n + 1, p => bisectIter f target n (bisectStep f target p)

/-- Bracket-and-bisect root finder: 60 doublings from `high0`, then 60
bisection steps on `[0, high]`, returning the final midpoint
`0.5 * (low + high)`. -/
noncomputable def solveDq (f : ℝ → ℝ) (target : ℝ) (high0 : ℝ) : ℝ :=
  0.5 * ((bisectIter f target 60 (0, bracketIter f target 60 high0)).1 +
         (bisectIter f target 60 (0, bracketIter f target 60 high0)).2)

/-- Maximum stake (`LMSRContract.max_stake`, lmsr.py line 107; the
fixed_cap.py version is textually identical): if the remaining risk budget
is non-positive return 0, otherwise bracket-and-bisect for the equal-sides
delta dq with `cost(qT+dq, qF+dq) - cost(qT,qF) = remaining`, and convert
via `b * p_yes * (exp(dq / b) - 1)` (the code always uses the YES price
here). -/
noncomputable def maxStake (risk_cap b qT qF : ℝ) : ℝ :=
  if risk_cap - (cost b qT qF - cost b 0 0) ≤ 0 then 0
  else
    b * priceYes b qT qF *
      (Real.exp (solveDq (fun d => cost b (qT + d) (qF + d) - cost b qT qF)
        (risk_cap - (cost b qT qF - cost b 0 0)) 1 / b) - 1)

/-- Mutable market state of `LMSRContract` in lmsr.py.  The `_resolved`
attribute (set lazily in Python) is modelled as a Bool initialized to
false; the lock is concurrency plumbing with no sequential content. -/
structure MState where
  contract_id : ℤ
  name : String
  risk_cap : ℝ
  q_T : ℝ
  q_F : ℝ
  fee_rate : ℝ
  total_fees_collected : ℝ
  expected_yes_cashout : ℝ
  expected_no_cashout : ℝ
  yes_deposits : ℝ
  no_deposits : ℝ
  order_history : List Order
  b : ℝ
  resolved : Bool
  resolved_outcome : Option Side

/-- `LMSRContract.__init__` (lmsr.py line 43): b = risk_cap / log 2,
fee_rate = fee_percent / 100, aggregates zeroed. -/
noncomputable def mkContract (cid : ℤ) (nm : String) (risk_cap qT qF fee_percent : ℝ) :
    MState where
  contract_id := cid
  name := nm
  risk_cap := risk_cap
  q_T := qT
  q_F := qF
  fee_rate := fee_percent / 100
  total_fees_collected := 0
  expected_yes_cashout := 0
  expected_no_cashout := 0
  yes_deposits := 0
  no_deposits := 0
  order_history := []
  b := risk_cap / Real.log 2
  resolved := false
  resolved_outcome := none

/-- The all-zero `Order` returned by lmsr.py on a rejected trade
(lines 145, 154, 199, 204). -/
def zeroOrder (cid : ℤ) (side : Side) : Order :=
  { contract_id := cid, stake := 0, price := 0, expected_cashout := 0,
    side := side, fees := 0 }

/-- `LMSRContract.buy` (lmsr.py line 139).  Returns the order together
with the post-call state.  Rejections return the zero order and leave the
state unchanged; an accepted buy collects the fee, computes the closed-form
delta_q from the net amount, moves q on the chosen side, and appends to the
inventory (`__update_inventory` receives the net stake and the unrounded
price while the returned order carries the gross stake and rounded
figures). -/
noncomputable def buy (s : MState) (side : Side) (stake : ℝ) : Order × MState :=
  if s.risk_cap - (cost s.b s.q_T s.q_F - cost s.b 0 0) ≤ 0 then
    (zeroOrder s.contract_id side, s)
  else if maxStake s.risk_cap s.b s.q_T s.q_F < stake then
    (zeroOrder s.contract_id side, s)
  else
    let p_mid := if side = Side.YES then priceYes s.b s.q_T s.q_F
                 else priceNo s.b s.q_T s.q_F
    let fee_amount := stake * s.fee_rate
    let net_to_pool := stake - fee_amount
    let delta_q := s.b * Real.log (1 + net_to_pool / (s.b * p_mid))
    let qT' := if side = Side.YES then s.q_T + delta_q else s.q_T
    let qF' := if side = Side.YES then s.q_F else s.q_F + delta_q
    let side_price := if side = Side.YES then priceYes s.b qT' qF'
                      else priceNo s.b qT' qF'
    let expected_cashout := round_figure delta_q
    ({ contract_id := s.contract_id, stake := stake, price := round_figure side_price,
       expected_cashout := expected_cashout, side := side,
       fees := round_figure fee_amount },
     { s with
        q_T := qT'
        q_F := qF'
        total_fees_collected := s.total_fees_collected + fee_amount
        expected_yes_cashout :=
          if side = Side.YES then s.expected_yes_cashout + expected_cashout
          else s.expected_yes_cashout
        expected_no_cashout :=
          if side = Side.YES then s.expected_no_cashout
          else s.expected_no_cashout + expected_cashout
        yes_deposits :=
          if side = Side.YES then s.yes_deposits + net_to_pool else s.yes_deposits
        no_deposits :=
          if side = Side.YES then s.no_deposits else s.no_deposits + net_to_pool
        order_history := s.order_history ++
          [{ contract_id := s.contract_id, stake := net_to_pool, price := side_price,
             expected_cashout := expected_cashout, side := side, fees := fee_amount }] })

/-- `LMSRContract.sell` (lmsr.py line 189).  The first component is
`some order` on the normal paths and `none` on the no-shorting paths
(where the Python bodies are bare `return` statements yielding `None`).
Note the fee is added to `total_fees_collected` (line 209) before the
share delta is solved and before the no-shorting check. -/
noncomputable def sell (s : MState) (side : Side) (stake : ℝ) : Option Order × MState :=
  if s.risk_cap - (cost s.b s.q_T s.q_F - cost s.b 0 0) ≤ 0 then
    (some (zeroOrder s.contract_id side), s)
  else if maxStake s.risk_cap s.b s.q_T s.q_F < stake then
    (some (zeroOrder s.contract_id side), s)
  else
    let gross_from_pool := stake / (1 - s.fee_rate)
    let fee_amount := gross_from_pool * s.fee_rate
    let sFee := { s with total_fees_collected := s.total_fees_collected + fee_amount }
    let cost_diff := fun dq =>
      if side = Side.YES then cost s.b s.q_T s.q_F - cost s.b (s.q_T - dq) s.q_F
      else cost s.b s.q_T s.q_F - cost s.b s.q_T (s.q_F - dq)
    let dq := solveDq cost_diff gross_from_pool (max 1 (gross_from_pool * 2))
    if side = Side.YES then
      if s.q_T + 1 / 1000000000 < dq then (none, sFee)
      else
        let qT' := s.q_T - dq
        let side_price := priceYes s.b qT' s.q_F
        let expected_cashout := round_figure dq
        (some { contract_id := s.contract_id, stake := stake,
                price := round_figure side_price, expected_cashout := expected_cashout,
                side := side, fees := round_figure fee_amount },
         { sFee with
            q_T := qT'
            expected_yes_cashout := sFee.expected_yes_cashout - expected_cashout
            yes_deposits := sFee.yes_deposits - gross_from_pool
            order_history := sFee.order_history ++
              [{ contract_id := s.contract_id, stake := -gross_from_pool,
                 price := side_price, expected_cashout := -expected_cashout,
                 side := side, fees := fee_amount }] })
    else
      if s.q_F + 1 / 1000000000 < dq then (none, sFee)
      else
        let qF' := s.q_F - dq
        let side_price := priceNo s.b s.q_T qF'
        let expected_cashout := round_figure dq
        (some { contract_id := s.contract_id, stake := stake,
                price := round_figure side_price, expected_cashout := expected_cashout,
                side := side, fees := round_figure fee_amount },
         { sFee with
            q_F := qF'
            expected_no_cashout := sFee.expected_no_cashout - expected_cashout
            no_deposits := sFee.no_deposits - gross_from_pool
            order_history := sFee.order_history ++
              [{ contract_id := s.contract_id, stake := -gross_from_pool,
                 price := side_price, expected_cashout := -expected_cashout,
                 side := side, fees := fee_amount }] })

/-- The settlement report returned by `LMSRContract.resolve`
(lmsr.py line 325). -/
structure Report where
  outcome : Side
  total_payout : ℝ
  fees_collected : ℝ
  gross_pnl : ℝ
  net_pnl : ℝ
  risk_cap_used_pct : ℝ

/-- `LMSRContract.resolve` (lmsr.py line 325): raises (here: `none`) when
already resolved, otherwise pays the outstanding shares of the winning
side at face value, reports gross and net P&L, and marks the contract
resolved. -/
noncomputable def resolve (s : MState) (outcome : Side) : Option (Report × MState) :=
  if s.resolved then none
  else
    let total_payout := if outcome = Side.YES then s.q_T else s.q_F
    let gross_pnl := s.yes_deposits + s.no_deposits - total_payout
    some ({ outcome := outcome,
            total_payout := round_figure total_payout,
            fees_collected := round_figure s.total_fees_collected,
            gross_pnl := round_figure gross_pnl,
            net_pnl := round_figure (gross_pnl + s.total_fees_collected),
            risk_cap_used_pct := round_figure
              ((cost s.b s.q_T s.q_F - cost s.b 0 0) / s.risk_cap * 100) },
          { s with resolved := true, resolved_outcome := some outcome })

/-- State of `LMSRContract` in fixed_cap.py (no percentage fee is taken at
trade time there; `fees` is the flat constructor argument recorded on
orders). -/
structure FCState where
  contract_id : ℤ
  name : String
  risk_cap : ℝ
  q_T : ℝ
  q_F : ℝ
  fees : ℝ
  expected_yes_cashout : ℝ
  expected_no_cashout : ℝ
  yes_deposits : ℝ
  no_deposits : ℝ
  order_history : List Order
  b : ℝ

/-- `LMSRContract.__init__` of fixed_cap.py (line 54). -/
noncomputable def mkFCContract (cid : ℤ) (nm : String) (risk_cap qT qF fees : ℝ) :
    FCState where
  contract_id := cid
  name := nm
  risk_cap := risk_cap
  q_T := qT
  q_F := qF
  fees := fees
  expected_yes_cashout := 0
  expected_no_cashout := 0
  yes_deposits := 0
  no_deposits := 0
  order_history := []
  b := risk_cap / Real.log 2

/-- `LMSRContract.buy` of fixed_cap.py (line 159): same rejection checks as
lmsr.py, but delta_q is computed from the gross stake (no fee split) and
`expected_cashout` is `round_figure(stake / side_price)` with the
post-trade price — the stake/price convention. -/
noncomputable def FCbuy (s : FCState) (side : Side) (stake : ℝ) : Order × FCState :=
  if s.risk_cap - (cost s.b s.q_T s.q_F - cost s.b 0 0) ≤ 0 then
    (zeroOrder s.contract_id side, s)
  else if maxStake s.risk_cap s.b s.q_T s.q_F < stake then
    (zeroOrder s.contract_id side, s)
  else
    let p_self := if side = Side.YES then priceYes s.b s.q_T s.q_F
                  else priceNo s.b s.q_T s.q_F
    let delta_q := s.b * Real.log (1 + stake / (s.b * p_self))
    let qT' := if side = Side.YES then s.q_T + delta_q else s.q_T
    let qF' := if side = Side.YES then s.q_F else s.q_F + delta_q
    let side_price := if side = Side.YES then priceYes s.b qT' qF'
                      else priceNo s.b qT' qF'
    let expected_cashout := round_figure (stake / side_price)
    ({ contract_id := s.contract_id, stake := stake, price := round_figure side_price,
       expected_cashout := expected_cashout, side := side, fees := s.fees },
     { s with
        q_T := qT'
        q_F := qF'
        expected_yes_cashout :=
          if side = Side.YES then s.expected_yes_cashout + expected_cashout
          else s.expected_yes_cashout
        expected_no_cashout :=
          if side = Side.YES then s.expected_no_cashout
          else s.expected_no_cashout + expected_cashout
        yes_deposits :=
          if side = Side.YES then s.yes_deposits + stake else s.yes_deposits
        no_deposits :=
          if side = Side.YES then s.no_deposits else s.no_deposits + stake
        order_history := s.order_history ++
          [{ contract_id := s.contract_id, stake := stake, price := side_price,
             expected_cashout := expected_cashout, side := side, fees := s.fees }] })

/-- State of `LMSRContract` in strict_profit.py (adds the skew factor). -/
structure SPState where
  contract_id : ℤ
  name : String
  risk_cap : ℝ
  q_T : ℝ
  q_F : ℝ
  fee_rate : ℝ
  skew_factor : ℝ
  b : ℝ

/-- `LMSRContract.price` of strict_profit.py (line 93): raw log-sum-exp
prices, then, when `q_T + q_F > 1e-6`, an inventory-skew adjustment on the
YES price clamped into [0.01, 0.99], the NO price being its complement;
below the threshold the raw pair is returned. -/
noncomputable def SPprice (s : SPState) : ℝ × ℝ :=
  let p_yes_raw := priceYes s.b s.q_T s.q_F
  if 1 / 1000000 < s.q_T + s.q_F then
    let imbalance := (s.q_T - s.q_F) / (s.q_T + s.q_F)
    let p_yes_skewed := max 0.01 (min 0.99 (p_yes_raw - s.skew_factor * imbalance))
    (p_yes_skewed, 1 - p_yes_skewed)
  else (p_yes_raw, 1 - p_yes_raw)

/- ------------------------------------------------------------------ -/
/- Basic facts about the cost function and the prices.                 -/
/- ------------------------------------------------------------------ -/

/-- The two stabilized exponentials sum to something positive. -/
lemma exp_sum_pos (b qT qF : ℝ) :
    0 < Real.exp ((qT - max qT qF) / b) + Real.exp ((qF - max qT qF) / b) :=
  add_pos (Real.exp_pos _) (Real.exp_pos _)

/-- Unfolded form of the cost function: the max-subtraction stabilization
is value-neutral, cost(qT, qF) = b * log(exp(qT / b) + exp(qF / b)). -/
lemma cost_eq (b qT qF : ℝ) :
    cost b qT qF = b * Real.log (Real.exp (qT / b) + Real.exp (qF / b)) := by
  have hm : Real.exp (qT / b) + Real.exp (qF / b) =
      Real.exp (max qT qF / b) *
        (Real.exp ((qT - max qT qF) / b) + Real.exp ((qF - max qT qF) / b)) := by
    rw [mul_add, ← Real.exp_add, ← Real.exp_add]
    ring_nf
  rw [cost, hm, Real.log_mul (Real.exp_ne_zero _) (ne_of_gt (exp_sum_pos b qT qF)),
    Real.log_exp, mul_add]

/-- cost(0, 0) = b * log 2 (spec §4.1's fixed reference constant). -/
lemma cost_zero_zero (b : ℝ) : cost b 0 0 = b * Real.log 2 := by
  rw [cost_eq b 0 0]
  norm_num

/-- Translation invariance along the diagonal:
cost(qT + d, qF + d) = cost(qT, qF) + d. -/
lemma cost_shift (b qT qF d : ℝ) (hb : b ≠ 0) :
    cost b (qT + d) (qF + d) = cost b qT qF + d := by
  rw [cost_eq b (qT + d) (qF + d), cost_eq b qT qF]
  have h1 : Real.exp ((qT + d) / b) + Real.exp ((qF + d) / b) =
      Real.exp (d / b) * (Real.exp (qT / b) + Real.exp (qF / b)) := by
    rw [mul_add, ← Real.exp_add, ← Real.exp_add]
    ring_nf
  rw [h1, Real.log_mul (Real.exp_ne_zero _)
    (ne_of_gt (add_pos (Real.exp_pos _) (Real.exp_pos _))), Real.log_exp, mul_add,
    mul_div_cancel₀ _ hb]
  ring

/-- Unfolded YES price: exp(qT / b) / (exp(qT / b) + exp(qF / b)). -/
lemma priceYes_eq (b qT qF : ℝ) :
    priceYes b qT qF = Real.exp (qT / b) / (Real.exp (qT / b) + Real.exp (qF / b)) := by
  have hm : ∀ q : ℝ, Real.exp (q / b) =
      Real.exp (max qT qF / b) * Real.exp ((q - max qT qF) / b) := fun q => by
    rw [← Real.exp_add]
    ring_nf
  rw [priceYes, hm qT, hm qF, ← mul_add,
    mul_div_mul_left _ _ (Real.exp_ne_zero (max qT qF / b))]

/-- The unskewed prices are complementary. -/
lemma priceYes_add_priceNo (b qT qF : ℝ) :
    priceYes b qT qF + priceNo b qT qF = 1 := by
  rw [priceYes, priceNo, div_add_div_same,
    div_self (ne_of_gt (exp_sum_pos b qT qF))]

/-- Prices are strictly positive. -/
lemma priceYes_pos (b qT qF : ℝ) : 0 < priceYes b qT qF :=
  div_pos (Real.exp_pos _) (exp_sum_pos b qT qF)

lemma priceNo_pos (b qT qF : ℝ) : 0 < priceNo b qT qF :=
  div_pos (Real.exp_pos _) (exp_sum_pos b qT qF)

/-- Prices are at most one. -/
lemma priceYes_le_one (b qT qF : ℝ) : priceYes b qT qF ≤ 1 := by
  have h := priceYes_add_priceNo b qT qF
  have := priceNo_pos b qT qF
  linarith

lemma priceNo_le_one (b qT qF : ℝ) : priceNo b qT qF ≤ 1 := by
  have h := priceYes_add_priceNo b qT qF
  have := priceYes_pos b qT qF
  linarith

/-- At a balanced inventory the YES price is exactly one half. -/
lemma priceYes_diag (b x : ℝ) : priceYes b x x = 1 / 2 := by
  rw [priceYes, max_self, sub_self, zero_div, Real.exp_zero]
  norm_num

/- ------------------------------------------------------------------ -/
/- Facts about the bracket-and-bisect solver.                          -/
/- ------------------------------------------------------------------ -/

/-- Each bisection step halves the interval width exactly. -/
lemma bisectIter_width (f : ℝ → ℝ) (t : ℝ) :
    ∀ (n : ℕ) (l h : ℝ),
      (bisectIter f t n (l, h)).2 - (bisectIter f t n (l, h)).1 = (h - l) / 2 ^ n := by
  intro n
  induction n with
  | zero => intro l h; simp [bisectIter]
  | succ n ih =>
    intro l h
    simp only [bisectIter, bisectStep]
    by_cases hc : f (0.5 * (l + h)) < t
    · rw [if_pos hc, ih (0.5 * (l + h)) h]
      ring
    · rw [if_neg hc, ih l (0.5 * (l + h))]
      ring

/-- For the identity target function, bisection preserves the invariant
that the target is strictly above the low end and at most the high end. -/
lemma bisectIter_id_invariant (t : ℝ) :
    ∀ (n : ℕ) (l h : ℝ), l < t → t ≤ h →
      (bisectIter (fun x : ℝ => x) t n (l, h)).1 < t ∧
      t ≤ (bisectIter (fun x : ℝ => x) t n (l, h)).2 := by
  intro n
  induction n with
  | zero => intro l h hl hh; exact ⟨hl, hh⟩
  | succ n ih =>
    intro l h hl hh
    simp only [bisectIter, bisectStep]
    by_cases hc : 0.5 * (l + h) < t
    · rw [if_pos hc]; exact ih _ _ hc hh
    · rw [if_neg hc]; exact ih _ _ hl (le_of_not_lt hc)

/-- When every value of `f` is below the target, bisection only ever moves
the low end: the high end is unchanged and the low end stays at least its
starting value. -/
lemma bisectIter_all_lt (f : ℝ → ℝ) (t : ℝ) (hf : ∀ x, f x < t) :
    ∀ (n : ℕ) (l h : ℝ),
      bisectIter f t n (l, h) = (h - (h - l) / 2 ^ n, h) := by
  intro n
  induction n with
  | zero => intro l h; simp [bisectIter]
  | succ n ih =>
    intro l h
    simp only [bisectIter, bisectStep, if_pos (hf (0.5 * (l + h)))]
    rw [ih (0.5 * (l + h)) h]
    have : h - (h - 0.5 * (l + h)) / 2 ^ n = h - (h - l) / 2 ^ (n + 1) := by ring
    rw [this]

/-- For the identity target function with the whole interval at or below
the target, bisection likewise only moves the low end. -/
lemma bisectIter_id_below (t : ℝ) :
    ∀ (n : ℕ) (l h : ℝ), l < h → h ≤ t →
      bisectIter (fun x : ℝ => x) t n (l, h) = (h - (h - l) / 2 ^ n, h) := by
  intro n
  induction n with
  | zero => intro l h _ _; simp [bisectIter]
  | succ n ih =>
    intro l h hlh hht
    have hc : 0.5 * (l + h) < t := lt_of_lt_of_le (by linarith) hht
    simp only [bisectIter, bisectStep, if_pos hc]
    rw [ih (0.5 * (l + h)) h (by linarith) hht]
    have : h - (h - 0.5 * (l + h)) / 2 ^ n = h - (h - l) / 2 ^ (n + 1) := by ring
    rw [this]

/-- If the first probe already meets the target the bracket loop returns
its starting point. -/
lemma bracketIter_of_le (f : ℝ → ℝ) (t : ℝ) (n : ℕ) (h : ℝ) (hle : t ≤ f h) :
    bracketIter f t n h = h := by
  cases n with
  | zero => rfl
  | succ n => simp [bracketIter, if_pos hle]

/-- If every value of `f` is below the target the bracket loop doubles all
the way. -/
lemma bracketIter_all_lt (f : ℝ → ℝ) (t : ℝ) (hf : ∀ x, f x < t) :
    ∀ (n : ℕ) (h : ℝ), bracketIter f t n h = h * 2 ^ n := by
  intro n
  induction n with
  | zero => intro h; simp [bracketIter]
  | succ n ih =>
    intro h
    have : ¬ t ≤ f h := not_le_of_lt (hf h)
    simp only [bracketIter, if_neg this]
    rw [ih (h * 2)]
    ring

/-- The diagonal target function used by `max_stake` collapses to the
identity, by translation invariance of the cost function. -/
lemma diag_target_eq (b qT qF : ℝ) (hb : b ≠ 0) :
    (fun d => cost b (qT + d) (qF + d) - cost b qT qF) = fun d : ℝ => d := by
  funext d
  rw [cost_shift b qT qF d hb]
  ring

/-- With every `f` value below the target, the full solver returns
`high0 * 2 ^ 60 * (1 - 2⁻⁶¹)`. -/
lemma solveDq_all_lt (f : ℝ → ℝ) (t high0 : ℝ) (hf : ∀ x, f x < t) :
    solveDq f t high0 = high0 * 2 ^ 60 - high0 * 2 ^ 60 / 2 ^ 61 := by
  rw [solveDq, bracketIter_all_lt f t hf 60 high0,
    bisectIter_all_lt f t hf 60 0 (high0 * 2 ^ 60)]
  ring

/-- Solver value for the identity function at target exactly 1:
1 - 2⁻⁶¹. -/
lemma solveDq_id_one : solveDq (fun x : ℝ => x) 1 1 = 1 - 1 / 2 ^ 61 := by
  have hb : bracketIter (fun x : ℝ => x) (1 : ℝ) 60 1 = 1 :=
    bracketIter_of_le _ 1 60 1 (by norm_num)
  rw [solveDq, hb, bisectIter_id_below 1 60 0 1 (by norm_num) (by norm_num)]
  norm_num

/-- For a target in (0, 1], the solver's answer is within 2⁻⁶¹ of the
target. -/
lemma solveDq_id_approx (t : ℝ) (h0 : 0 < t) (h1 : t ≤ 1) :
    t - 1 / 2 ^ 61 ≤ solveDq (fun x : ℝ => x) t 1 ∧
    solveDq (fun x : ℝ => x) t 1 < t + 1 / 2 ^ 61 := by
  have hb : bracketIter (fun x : ℝ => x) t 60 1 = 1 :=
    bracketIter_of_le _ t 60 1 h1
  have hinv := bisectIter_id_invariant t 60 0 1 h0 h1
  have hw := bisectIter_width (fun x : ℝ => x) t 60 0 1
  rw [solveDq, hb]
  constructor
  · have : (bisectIter (fun x : ℝ => x) t 60 (0, 1)).1 =
        (bisectIter (fun x : ℝ => x) t 60 (0, 1)).2 - 1 / 2 ^ 60 := by
      rw [eq_sub_iff_add_eq]
      have := hw
      norm_num at this ⊢
      linarith
    rw [this]
    have h2 := hinv.2
    norm_num
    linarith
  · have : (bisectIter (fun x : ℝ => x) t 60 (0, 1)).2 =
        (bisectIter (fun x : ℝ => x) t 60 (0, 1)).1 + 1 / 2 ^ 60 := by
      rw [eq_comm, add_comm, ← eq_sub_iff_add_eq]
      have := hw
      norm_num at this ⊢
      linarith
    rw [this]
    have h2 := hinv.1
    norm_num
    linarith

/-- Unfolding `maxStake` on the accepting branch, with the diagonal
target rewritten to the identity. -/
lemma maxStake_eq (risk_cap b qT qF : ℝ) (hb : b ≠ 0)
    (h : ¬ risk_cap - (cost b qT qF - cost b 0 0) ≤ 0) :
    maxStake risk_cap b qT qF =
      b * priceYes b qT qF *
        (Real.exp (solveDq (fun x : ℝ => x)
          (risk_cap - (cost b qT qF - cost b 0 0)) 1 / b) - 1) := by
  rw [maxStake, if_neg h, diag_target_eq b qT qF hb]

/-- `maxStake` is zero when the remaining risk budget is non-positive. -/
lemma maxStake_of_nonpos (risk_cap b qT qF : ℝ)
    (h : risk_cap - (cost b qT qF - cost b 0 0) ≤ 0) :
    maxStake risk_cap b qT qF = 0 := by
  rw [maxStake, if_pos h]

/- ------------------------------------------------------------------ -/
/- Elementary exponential and logarithm bounds.                        -/
/- ------------------------------------------------------------------ -/

/-- (1 + y / n)ⁿ ≤ exp y for non-negative y. -/
lemma pow_one_add_div_le_exp (y : ℝ) (n : ℕ) (hy : 0 ≤ y) (hn : n ≠ 0) :
    (1 + y / n) ^ n ≤ Real.exp y := by
  have hn' : (0 : ℝ) < n := by
    have := Nat.pos_of_ne_zero hn
    exact_mod_cast this
  have h1 : Real.exp y = Real.exp (y / n) ^ n := by
    rw [← Real.exp_nat_mul]
    congr 1
    field_simp
  rw [h1]
  apply pow_le_pow_left (by positivity)
  have := Real.add_one_le_exp (y / n)
  linarith

/-- exp d ≤ 1 / (1 - d) for 0 ≤ d < 1. -/
lemma exp_le_inv_one_sub (d : ℝ) (h0 : 0 ≤ d) (h1 : d < 1) :
    Real.exp d ≤ 1 / (1 - d) := by
  have h2 : 1 - d ≤ Real.exp (-d) := by
    have := Real.add_one_le_exp (-d)
    linarith
  have h4 : 0 < Real.exp d := Real.exp_pos d
  rw [le_div_iff (by linarith : (0 : ℝ) < 1 - d)]
  have h5 : Real.exp d * (1 - d) ≤ Real.exp d * Real.exp (-d) :=
    mul_le_mul_of_nonneg_left h2 (le_of_lt h4)
  rw [← Real.exp_add] at h5
  have h6 : d + -d = 0 := by ring
  rw [h6, Real.exp_zero] at h5
  exact h5

/-- log (1 + y) ≤ y for y ≥ 0. -/
lemma log_one_add_le (y : ℝ) (hy : 0 ≤ y) : Real.log (1 + y) ≤ y := by
  have := Real.log_le_sub_one_of_pos (x := 1 + y) (by linarith)
  linarith

/- ------------------------------------------------------------------ -/
/- Unfolding the trade operations branch by branch.                    -/
/- ------------------------------------------------------------------ -/

/-- A buy whose stake exceeds `max_stake` returns the zero order and
leaves the state unchanged. -/
lemma buy_reject_stake (s : MState) (side : Side) (stake : ℝ)
    (h1 : ¬ s.risk_cap - (cost s.b s.q_T s.q_F - cost s.b 0 0) ≤ 0)
    (h2 : maxStake s.risk_cap s.b s.q_T s.q_F < stake) :
    buy s side stake = (zeroOrder s.contract_id side, s) := by
  rw [buy, if_neg h1, if_pos h2]

/-- Explicit form of an accepted YES buy. -/
lemma buy_accepted_yes (s : MState) (stake : ℝ)
    (h1 : ¬ s.risk_cap - (cost s.b s.q_T s.q_F - cost s.b 0 0) ≤ 0)
    (h2 : ¬ maxStake s.risk_cap s.b s.q_T s.q_F < stake) :
    buy s Side.YES stake =
      ({ contract_id := s.contract_id, stake := stake,
         price := round_figure (priceYes s.b
           (s.q_T + s.b * Real.log (1 + (stake - stake * s.fee_rate) /
             (s.b * priceYes s.b s.q_T s.q_F))) s.q_F),
         expected_cashout := round_figure (s.b * Real.log (1 +
           (stake - stake * s.fee_rate) / (s.b * priceYes s.b s.q_T s.q_F))),
         side := Side.YES,
         fees := round_figure (stake * s.fee_rate) },
       { s with
          q_T := s.q_T + s.b * Real.log (1 + (stake - stake * s.fee_rate) /
            (s.b * priceYes s.b s.q_T s.q_F))
          total_fees_collected := s.total_fees_collected + stake * s.fee_rate
          expected_yes_cashout := s.expected_yes_cashout + round_figure (s.b *
            Real.log (1 + (stake - stake * s.fee_rate) /
              (s.b * priceYes s.b s.q_T s.q_F)))
          yes_deposits := s.yes_deposits + (stake - stake * s.fee_rate)
          order_history := s.order_history ++
            [{ contract_id := s.contract_id, stake := stake - stake * s.fee_rate,
               price := priceYes s.b (s.q_T + s.b * Real.log (1 +
                 (stake - stake * s.fee_rate) /
                   (s.b * priceYes s.b s.q_T s.q_F))) s.q_F,
               expected_cashout := round_figure (s.b * Real.log (1 +
                 (stake - stake * s.fee_rate) / (s.b * priceYes s.b s.q_T s.q_F))),
               side := Side.YES, fees := stake * s.fee_rate }] }) := by
  rw [buy, if_neg h1, if_neg h2]
  rfl

/-- Explicit form of an accepted NO buy. -/
lemma buy_accepted_no (s : MState) (stake : ℝ)
    (h1 : ¬ s.risk_cap - (cost s.b s.q_T s.q_F - cost s.b 0 0) ≤ 0)
    (h2 : ¬ maxStake s.risk_cap s.b s.q_T s.q_F < stake) :
    buy s Side.NO stake =
      ({ contract_id := s.contract_id, stake := stake,
         price := round_figure (priceNo s.b s.q_T
           (s.q_F + s.b * Real.log (1 + (stake - stake * s.fee_rate) /
             (s.b * priceNo s.b s.q_T s.q_F)))),
         expected_cashout := round_figure (s.b * Real.log (1 +
           (stake - stake * s.fee_rate) / (s.b * priceNo s.b s.q_T s.q_F))),
         side := Side.NO,
         fees := round_figure (stake * s.fee_rate) },
       { s with
          q_F := s.q_F + s.b * Real.log (1 + (stake - stake * s.fee_rate) /
            (s.b * priceNo s.b s.q_T s.q_F))
          total_fees_collected := s.total_fees_collected + stake * s.fee_rate
          expected_no_cashout := s.expected_no_cashout + round_figure (s.b *
            Real.log (1 + (stake - stake * s.fee_rate) /
              (s.b * priceNo s.b s.q_T s.q_F)))
          no_deposits := s.no_deposits + (stake - stake * s.fee_rate)
          order_history := s.order_history ++
            [{ contract_id := s.contract_id, stake := stake - stake * s.fee_rate,
               price := priceNo s.b s.q_T (s.q_F + s.b * Real.log (1 +
                 (stake - stake * s.fee_rate) /
                   (s.b * priceNo s.b s.q_T s.q_F))),
               expected_cashout := round_figure (s.b * Real.log (1 +
                 (stake - stake * s.fee_rate) / (s.b * priceNo s.b s.q_T s.q_F))),
               side := Side.NO, fees := stake * s.fee_rate }] }) := by
  rw [buy, if_neg h1, if_neg h2]
  rfl

/-- A YES sell that trips the no-shorting check returns `None` — but only
after the fee has already been added to `total_fees_collected`. -/
lemma sell_noshort_yes (s : MState) (stake : ℝ)
    (h1 : ¬ s.risk_cap - (cost s.b s.q_T s.q_F - cost s.b 0 0) ≤ 0)
    (h2 : ¬ maxStake s.risk_cap s.b s.q_T s.q_F < stake)
    (h3 : s.q_T + 1 / 1000000000 <
      solveDq (fun dq => cost s.b s.q_T s.q_F - cost s.b (s.q_T - dq) s.q_F)
        (stake / (1 - s.fee_rate)) (max 1 (stake / (1 - s.fee_rate) * 2))) :
    sell s Side.YES stake =
      (none, { s with total_fees_collected :=
        s.total_fees_collected + stake / (1 - s.fee_rate) * s.fee_rate }) := by
  have hfun : (fun dq => if Side.YES = Side.YES then
      cost s.b s.q_T s.q_F - cost s.b (s.q_T - dq) s.q_F
      else cost s.b s.q_T s.q_F - cost s.b s.q_T (s.q_F - dq)) =
      fun dq => cost s.b s.q_T s.q_F - cost s.b (s.q_T - dq) s.q_F := by
    funext dq
    rw [if_pos rfl]
  rw [sell, if_neg h1, if_neg h2]
  simp only [eq_self_iff_true, if_true]
  rw [if_pos h3]

/-- `resolve` on an unresolved market: explicit report and post-state. -/
lemma resolve_unresolved (s : MState) (outcome : Side) (h : s.resolved = false) :
    resolve s outcome =
      some ({ outcome := outcome,
              total_payout := round_figure (if outcome = Side.YES then s.q_T else s.q_F),
              fees_collected := round_figure s.total_fees_collected,
              gross_pnl := round_figure (s.yes_deposits + s.no_deposits -
                (if outcome = Side.YES then s.q_T else s.q_F)),
              net_pnl := round_figure (s.yes_deposits + s.no_deposits -
                (if outcome = Side.YES then s.q_T else s.q_F) + s.total_fees_collected),
              risk_cap_used_pct := round_figure
                ((cost s.b s.q_T s.q_F - cost s.b 0 0) / s.risk_cap * 100) },
            { s with resolved := true, resolved_outcome := some outcome }) := by
  rw [resolve, if_neg (by rw [h]; exact Bool.false_ne_true)]

/-- `resolve` on a resolved market fails. -/
lemma resolve_resolved (s : MState) (outcome : Side) (h : s.resolved = true) :
    resolve s outcome = none := by
  rw [resolve, if_pos h]

/- ------------------------------------------------------------------ -/
/- The exact cost increase of an accepted buy.                         -/
/- ------------------------------------------------------------------ -/

lemma log2_pos : (0 : ℝ) < Real.log 2 := Real.log_pos (by norm_num)

lemma b1_pos : (0 : ℝ) < 1 / Real.log 2 := div_pos one_pos log2_pos

/-- A market with no current loss and positive risk cap passes the
capacity check. -/
lemma no_loss_open (risk_cap b : ℝ) (h : 0 < risk_cap) :
    ¬ risk_cap - (cost b 0 0 - cost b 0 0) ≤ 0 := by
  rw [sub_self, sub_zero]
  exact not_le.mpr h

/-- Closed form of `max_stake` on a fresh market with risk_cap = 1:
the bisected dq is exactly 1 - 2⁻⁶¹. -/
lemma maxStake_fresh_eq :
    maxStake 1 (1 / Real.log 2) 0 0 =
      1 / Real.log 2 * (1 / 2) *
        (Real.exp ((1 - 1 / 2 ^ 61) * Real.log 2) - 1) := by
  rw [maxStake_eq 1 (1 / Real.log 2) 0 0 (ne_of_gt b1_pos) (no_loss_open 1 _ one_pos),
    sub_self, sub_zero, solveDq_id_one, priceYes_diag, div_div_eq_mul_div, div_one]

/-- Lower numeric bound for the exponential appearing there. -/
lemma exp_near_two_ge :
    (1.9845 : ℝ) ≤ Real.exp ((1 - 1 / 2 ^ 61) * Real.log 2) := by
  have h9 := Real.log_two_gt_d9
  have hx : (0.6931471 : ℝ) ≤ (1 - 1 / 2 ^ 61) * Real.log 2 := by
    nlinarith
  have hx0 : (0 : ℝ) ≤ (1 - 1 / 2 ^ 61) * Real.log 2 := by linarith
  have hpow := pow_one_add_div_le_exp ((1 - 1 / 2 ^ 61) * Real.log 2) 32 hx0
    (by norm_num)
  have hmono : ((1 : ℝ) + 0.6931471 / 32) ^ 32 ≤
      (1 + (1 - 1 / 2 ^ 61) * Real.log 2 / 32) ^ 32 := by
    apply pow_le_pow_left (by norm_num)
    · push_cast
      linarith
  have hnum : (1.9845 : ℝ) ≤ ((1 : ℝ) + 0.6931471 / 32) ^ 32 := by norm_num
  push_cast at hpow hmono
  linarith

/-- Upper numeric bound for the same exponential: at most 2. -/
lemma exp_near_two_le :
    Real.exp ((1 - 1 / 2 ^ 61) * Real.log 2) ≤ 2 := by
  have h2 : Real.exp (Real.log 2) = 2 := Real.exp_log (by norm_num)
  have hmono : Real.exp ((1 - 1 / 2 ^ 61) * Real.log 2) ≤ Real.exp (Real.log 2) :=
    Real.exp_le_exp.mpr (by nlinarith [log2_pos])
  linarith

/-- The fresh cap-1 market accepts stakes up to at least 0.7. -/
lemma maxStake_fresh_ge : (0.7 : ℝ) ≤ maxStake 1 (1 / Real.log 2) 0 0 := by
  rw [maxStake_fresh_eq]
  have h8 := Real.log_two_lt_d9
  have he := exp_near_two_ge
  have hL : (0 : ℝ) < Real.log 2 := log2_pos
  have hrw : 1 / Real.log 2 * (1 / 2) *
      (Real.exp ((1 - 1 / 2 ^ 61) * Real.log 2) - 1) =
      (Real.exp ((1 - 1 / 2 ^ 61) * Real.log 2) - 1) / (2 * Real.log 2) := by
    ring
  rw [hrw, le_div_iff (by positivity)]
  nlinarith

/-- And at most 0.722. -/
lemma maxStake_fresh_le : maxStake 1 (1 / Real.log 2) 0 0 ≤ 0.722 := by
  rw [maxStake_fresh_eq]
  have h9 := Real.log_two_gt_d9
  have he := exp_near_two_le
  have hL : (0 : ℝ) < Real.log 2 := log2_pos
  have hrw : 1 / Real.log 2 * (1 / 2) *
      (Real.exp ((1 - 1 / 2 ^ 61) * Real.log 2) - 1) =
      (Real.exp ((1 - 1 / 2 ^ 61) * Real.log 2) - 1) / (2 * Real.log 2) := by
    ring
  rw [hrw, div_le_iff (by positivity)]
  nlinarith

/-- Integer inputs are fixed points of the two-decimal rounding. -/
lemma round_figure_intCast (n : ℤ) : round_figure ((n : ℝ)) = (n : ℝ) := by
  rw [round_figure]
  have h : ((n : ℝ) * 100) = ((n * 100 : ℤ) : ℝ) := by push_cast; ring
  rw [h, round_intCast]
  push_cast
  ring

/- ------------------------------------------------------------------ -/
/- Claim C7.                                                           -/
/- ------------------------------------------------------------------ -/

/-- C7: in unskewed mode, for every share pair with q_yes ≥ 0 and
q_no ≥ 0 the marginal prices sum to 1, and the YES price is
exp((q_yes - m) / b) / (exp((q_yes - m) / b) + exp((q_no - m) / b)) with
m = max(q_yes, q_no).  In the exact-real model the sum is exactly 1. -/
theorem C7_price_complement (b qT qF : ℝ) (hb : 0 < b) (hT : 0 ≤ qT) (hF : 0 ≤ qF) :
    priceYes b qT qF + priceNo b qT qF = 1 ∧
    priceYes b qT qF = Real.exp ((qT - max qT qF) / b) /
      (Real.exp ((qT - max qT qF) / b) + Real.exp ((qF - max qT qF) / b)) :=
  ⟨priceYes_add_priceNo b qT qF, rfl⟩

/-- Witness for C7 at b = 1, q_yes = q_no = 0. -/
theorem C7_witness :
    (0 : ℝ) < 1 ∧ (0 : ℝ) ≤ 0 ∧ (0 : ℝ) ≤ 0 ∧
    (priceYes 1 0 0 + priceNo 1 0 0 = 1 ∧
     priceYes 1 0 0 = Real.exp (((0 : ℝ) - max 0 0) / 1) /
       (Real.exp (((0 : ℝ) - max 0 0) / 1) + Real.exp (((0 : ℝ) - max 0 0) / 1))) :=
  ⟨one_pos, le_refl 0, le_refl 0, C7_price_complement 1 0 0 one_pos (le_refl 0) (le_refl 0)⟩

/- ------------------------------------------------------------------ -/
/- Claim C10.                                                          -/
/- ------------------------------------------------------------------ -/

/-- C10: the cost function is translation invariant along the diagonal —
cost(q_yes + d, q_no + d) = cost(q_yes, q_no) + d in exact arithmetic —
and consequently the equal-sides delta that the max_stake search solves
for (the root of cost(q_yes+d, q_no+d) - cost(q_yes, q_no) = R) is
exactly the remaining budget R. -/
theorem C10_cost_translation (b qT qF d R : ℝ) (hb : 0 < b)
    (hT : 0 ≤ qT) (hF : 0 ≤ qF) (hd : 0 ≤ d) :
    cost b (qT + d) (qF + d) = cost b qT qF + d ∧
    (cost b (qT + d) (qF + d) - cost b qT qF = R ↔ d = R) := by
  have h := cost_shift b qT qF d (ne_of_gt hb)
  refine ⟨h, ?_⟩
  rw [h]
  constructor <;> intro hh <;> linarith

/-- Witness for C10 at b = 1, q_yes = 2, q_no = 3, d = 5, R = 5. -/
theorem C10_witness :
    (0 : ℝ) < 1 ∧ (0 : ℝ) ≤ 2 ∧ (0 : ℝ) ≤ 3 ∧ (0 : ℝ) ≤ 5 ∧
    (cost 1 (2 + 5) (3 + 5) = cost 1 2 3 + 5 ∧
     (cost 1 (2 + 5) (3 + 5) - cost 1 2 3 = 5 ↔ (5 : ℝ) = 5)) :=
  ⟨one_pos, by norm_num, by norm_num, by norm_num,
   C10_cost_translation 1 2 3 5 5 one_pos (by norm_num) (by norm_num) (by norm_num)⟩

/- ------------------------------------------------------------------ -/
/- Claim C4.                                                           -/
/- ------------------------------------------------------------------ -/

/-- Fresh lmsr.py market with risk_cap = 1 and the default 2% fee. -/
noncomputable def c4market : MState := mkContract 4 "m" 1 0 0 2

/-- C4: the code violates the claim — a buy rejected because the stake
exceeds max_stake is reported as an all-zero `Order` (with the market
unchanged), indistinguishable from a legitimately zero-size trade, not as
a typed rejection value.  Evaluating lmsr.py's buy at the failing input:
a fresh risk_cap = 1 market rejects a 1000 stake by returning the zero
order. -/
theorem C4_silent_zero_order :
    buy c4market Side.YES 1000 =
      ({ contract_id := 4, stake := 0, price := 0, expected_cashout := 0,
         side := Side.YES, fees := 0 }, c4market) := by
  have h1 : ¬ c4market.risk_cap -
      (cost c4market.b c4market.q_T c4market.q_F - cost c4market.b 0 0) ≤ 0 :=
    no_loss_open 1 (1 / Real.log 2) one_pos
  have h2 : maxStake c4market.risk_cap c4market.b c4market.q_T c4market.q_F < 1000 :=
    lt_of_le_of_lt maxStake_fresh_le (by norm_num)
  exact buy_reject_stake c4market Side.YES 1000 h1 h2

/- ------------------------------------------------------------------ -/
/- Claim C6.                                                           -/
/- ------------------------------------------------------------------ -/

/-- The settlement scenario of spec §8: yes_deposits = 6000,
no_deposits = 4000, q_yes = 8000, fees collected 150, unresolved. -/
noncomputable def c6scenario : MState where
  contract_id := 6
  name := "scenario"
  risk_cap := 1000
  q_T := 8000
  q_F := 0
  fee_rate := 0.02
  total_fees_collected := 150
  expected_yes_cashout := 0
  expected_no_cashout := 0
  yes_deposits := 6000
  no_deposits := 4000
  order_history := []
  b := 1000 / Real.log 2
  resolved := false
  resolved_outcome := none

/-- C6 (amended): resolve on an unresolved market returns
total_payout = round2(q_yes or q_no by outcome),
gross_pnl = round2(deposits - payout) and
net_pnl = round2(gross + fees) — each rounded to two decimals by
`round_figure` — and on the §8 scenario the values are exactly
8000, 2000 and 2150. -/
theorem C6_resolve_report (s : MState) (outcome : Side) (h : s.resolved = false) :
    ((resolve s outcome).map fun p =>
      (p.1.total_payout, p.1.gross_pnl, p.1.net_pnl)) =
      some (round_figure (if outcome = Side.YES then s.q_T else s.q_F),
        round_figure (s.yes_deposits + s.no_deposits -
          (if outcome = Side.YES then s.q_T else s.q_F)),
        round_figure (s.yes_deposits + s.no_deposits -
          (if outcome = Side.YES then s.q_T else s.q_F) + s.total_fees_collected)) ∧
    ((resolve c6scenario Side.YES).map fun p =>
      (p.1.total_payout, p.1.gross_pnl, p.1.net_pnl)) = some (8000, 2000, 2150) := by
  constructor
  · rw [resolve_unresolved s outcome h]
    rfl
  · rw [resolve_unresolved c6scenario Side.YES rfl]
    have h8 : round_figure ((8000 : ℝ)) = 8000 := by
      have := round_figure_intCast 8000
      norm_num at this
      exact this
    have hg : round_figure ((2000 : ℝ)) = 2000 := by
      have := round_figure_intCast 2000
      norm_num at this
      exact this
    have hn : round_figure ((2150 : ℝ)) = 2150 := by
      have := round_figure_intCast 2150
      norm_num at this
      exact this
    simp only [c6scenario, Option.map, if_pos rfl]
    norm_num [h8, hg, hn]

/-- Witness for C6 at the §8 scenario. -/
theorem C6_witness :
    c6scenario.resolved = false ∧
    (((resolve c6scenario Side.YES).map fun p =>
      (p.1.total_payout, p.1.gross_pnl, p.1.net_pnl)) =
      some (round_figure (if Side.YES = Side.YES then c6scenario.q_T else c6scenario.q_F),
        round_figure (c6scenario.yes_deposits + c6scenario.no_deposits -
          (if Side.YES = Side.YES then c6scenario.q_T else c6scenario.q_F)),
        round_figure (c6scenario.yes_deposits + c6scenario.no_deposits -
          (if Side.YES = Side.YES then c6scenario.q_T else c6scenario.q_F) +
            c6scenario.total_fees_collected)) ∧
     ((resolve c6scenario Side.YES).map fun p =>
      (p.1.total_payout, p.1.gross_pnl, p.1.net_pnl)) = some (8000, 2000, 2150)) :=
  ⟨rfl, C6_resolve_report c6scenario Side.YES rfl⟩

/-- An unresolved market whose q_yes is not a multiple of a cent. -/
noncomputable def c6third : MState where
  contract_id := 6
  name := "third"
  risk_cap := 1000
  q_T := 1 / 3
  q_F := 0
  fee_rate := 0
  total_fees_collected := 0
  expected_yes_cashout := 0
  expected_no_cashout := 0
  yes_deposits := 0
  no_deposits := 0
  order_history := []
  b := 1000 / Real.log 2
  resolved := false
  resolved_outcome := none

/-- C6 counterexample to the claim as stated: with q_yes = 1/3 the
returned total_payout is round2(1/3) = 0.33, not q_yes itself — the
report is rounded to two decimals. -/
theorem C6_counterexample :
    ((resolve c6third Side.YES).map fun p => p.1.total_payout) ≠
      some c6third.q_T := by
  rw [resolve_unresolved c6third Side.YES rfl]
  have hr : round ((1 : ℝ) / 3 * 100) = 33 := by
    rw [round_eq]
    apply Int.floor_eq_iff.mpr
    constructor <;> norm_num
  simp only [c6third, Option.map, eq_self_iff_true, if_true]
  intro hcontra
  rw [Option.some.injEq, round_figure, hr] at hcontra
  norm_num at hcontra

/- ------------------------------------------------------------------ -/
/- Claim C2.                                                           -/
/- ------------------------------------------------------------------ -/

/-- Fresh lmsr.py market with risk_cap = 1 and zero fee. -/
noncomputable def c2open : MState := mkContract 2 "m" 1 0 0 0

/-- The same market after a successful `resolve(YES)`. -/
noncomputable def c2resolved : MState :=
  { c2open with resolved := true, resolved_outcome := some Side.YES }

/-- C2 (amended): resolve is single-fire — on an unresolved market it
succeeds, a second resolve on the resulting state fails with
AlreadyResolved (modelled as `none`), and the first call leaves every
share and aggregate field unchanged.  (The dropped part of the claim —
that no operation can mutate a RESOLVED market — is refuted by
`C2_counterexample`: buy and sell never consult the resolved flag.) -/
theorem C2_resolve_single_fire (s : MState) (o o' : Side) (h : s.resolved = false) :
    (resolve s o).isSome = true ∧
    ∀ r s₁, resolve s o = some (r, s₁) →
      resolve s₁ o' = none ∧ s₁.q_T = s.q_T ∧ s₁.q_F = s.q_F ∧
      s₁.yes_deposits = s.yes_deposits ∧ s₁.no_deposits = s.no_deposits ∧
      s₁.expected_yes_cashout = s.expected_yes_cashout ∧
      s₁.expected_no_cashout = s.expected_no_cashout ∧
      s₁.total_fees_collected = s.total_fees_collected ∧
      s₁.order_history = s.order_history := by
  rw [resolve_unresolved s o h]
  refine ⟨rfl, ?_⟩
  intro r s₁ heq
  rw [Option.some.injEq] at heq
  injection heq with hr hs
  subst hs
  exact ⟨resolve_resolved _ o' rfl, rfl, rfl, rfl, rfl, rfl, rfl, rfl, rfl⟩

/-- Witness for C2 at a fresh market. -/
theorem C2_witness :
    c2open.resolved = false ∧
    ((resolve c2open Side.YES).isSome = true ∧
     ∀ r s₁, resolve c2open Side.YES = some (r, s₁) →
      resolve s₁ Side.NO = none ∧ s₁.q_T = c2open.q_T ∧ s₁.q_F = c2open.q_F ∧
      s₁.yes_deposits = c2open.yes_deposits ∧ s₁.no_deposits = c2open.no_deposits ∧
      s₁.expected_yes_cashout = c2open.expected_yes_cashout ∧
      s₁.expected_no_cashout = c2open.expected_no_cashout ∧
      s₁.total_fees_collected = c2open.total_fees_collected ∧
      s₁.order_history = c2open.order_history) :=
  ⟨rfl, C2_resolve_single_fire c2open Side.YES Side.NO rfl⟩

/-- C2 counterexample to the claim as stated: after `resolve(YES)` on a
fresh risk_cap = 1 market, a quarter-unit YES buy is still accepted and
mutates q_yes — buy never checks the resolved flag. -/
theorem C2_counterexample :
    (resolve c2open Side.YES).map Prod.snd = some c2resolved ∧
    (buy c2resolved Side.YES (1 / 4)).2.q_T ≠ c2resolved.q_T := by
  constructor
  · rw [resolve_unresolved c2open Side.YES rfl]
    rfl
  · have h1 : ¬ c2resolved.risk_cap - (cost c2resolved.b c2resolved.q_T
        c2resolved.q_F - cost c2resolved.b 0 0) ≤ 0 :=
      no_loss_open 1 (1 / Real.log 2) one_pos
    have h2 : ¬ maxStake c2resolved.risk_cap c2resolved.b c2resolved.q_T
        c2resolved.q_F < (1 / 4 : ℝ) :=
      not_lt.mpr (le_trans (by norm_num) maxStake_fresh_ge)
    rw [buy_accepted_yes c2resolved (1 / 4) h1 h2]
    have hfee : c2resolved.fee_rate = 0 := by
      show (0 : ℝ) / 100 = 0
      norm_num
    have hb0 : (0 : ℝ) < c2resolved.b := b1_pos
    have hp := priceYes_pos c2resolved.b c2resolved.q_T c2resolved.q_F
    have harg : (0 : ℝ) < (1 / 4 - 1 / 4 * c2resolved.fee_rate) /
        (c2resolved.b * priceYes c2resolved.b c2resolved.q_T c2resolved.q_F) := by
      rw [hfee]
      apply div_pos (by norm_num) (mul_pos hb0 hp)
    have hδ : 0 < c2resolved.b * Real.log (1 + (1 / 4 - 1 / 4 * c2resolved.fee_rate) /
        (c2resolved.b * priceYes c2resolved.b c2resolved.q_T c2resolved.q_F)) :=
      mul_pos hb0 (Real.log_pos (by linarith))
    show c2resolved.q_T + _ ≠ c2resolved.q_T
    intro hcontra
    have := add_right_eq_self.mp hcontra
    linarith

/- ------------------------------------------------------------------ -/
/- Claim C5.                                                           -/
/- ------------------------------------------------------------------ -/

/-- C5 (amended): in lmsr.py, an accepted buy records
expected_cashout = round2(delta_q) — the two-decimal rounding of the
exact share delta delta_q = b * ln(1 + net_to_pool / (b * price_self)) —
while the unrounded delta_q is what is added to the bought side, so the
convention is shares-based (not stake / post-trade price) up to display
rounding. -/
theorem C5_expected_cashout_shares (s : MState) (side : Side) (stake : ℝ)
    (h1 : ¬ s.risk_cap - (cost s.b s.q_T s.q_F - cost s.b 0 0) ≤ 0)
    (h2 : ¬ maxStake s.risk_cap s.b s.q_T s.q_F < stake) :
    (buy s side stake).1.expected_cashout =
      round_figure (s.b * Real.log (1 + (stake - stake * s.fee_rate) /
        (s.b * (if side = Side.YES then priceYes s.b s.q_T s.q_F
                else priceNo s.b s.q_T s.q_F)))) ∧
    (if side = Side.YES then (buy s side stake).2.q_T else (buy s side stake).2.q_F) =
      (if side = Side.YES then s.q_T else s.q_F) +
        s.b * Real.log (1 + (stake - stake * s.fee_rate) /
          (s.b * (if side = Side.YES then priceYes s.b s.q_T s.q_F
                  else priceNo s.b s.q_T s.q_F))) := by
  cases side
  · rw [buy_accepted_yes s stake h1 h2]
    exact ⟨rfl, rfl⟩
  · rw [buy_accepted_no s stake h1 h2]
    exact ⟨rfl, rfl⟩

/-- Fresh lmsr.py market with risk_cap = 1 and the default 2% fee. -/
noncomputable def c5market : MState := mkContract 5 "m" 1 0 0 2

/-- Witness for C5 at a fresh market and stake 1/4. -/
theorem C5_witness :
    (¬ c5market.risk_cap - (cost c5market.b c5market.q_T c5market.q_F -
       cost c5market.b 0 0) ≤ 0) ∧
    (¬ maxStake c5market.risk_cap c5market.b c5market.q_T c5market.q_F < (1 / 4 : ℝ)) ∧
    ((buy c5market Side.YES (1 / 4)).1.expected_cashout =
      round_figure (c5market.b * Real.log (1 + (1 / 4 - 1 / 4 * c5market.fee_rate) /
        (c5market.b * (if Side.YES = Side.YES then
            priceYes c5market.b c5market.q_T c5market.q_F
          else priceNo c5market.b c5market.q_T c5market.q_F)))) ∧
     (if Side.YES = Side.YES then (buy c5market Side.YES (1 / 4)).2.q_T
      else (buy c5market Side.YES (1 / 4)).2.q_F) =
      (if Side.YES = Side.YES then c5market.q_T else c5market.q_F) +
        c5market.b * Real.log (1 + (1 / 4 - 1 / 4 * c5market.fee_rate) /
          (c5market.b * (if Side.YES = Side.YES then
              priceYes c5market.b c5market.q_T c5market.q_F
            else priceNo c5market.b c5market.q_T c5market.q_F)))) := by
  have h1 : ¬ c5market.risk_cap - (cost c5market.b c5market.q_T c5market.q_F -
      cost c5market.b 0 0) ≤ 0 := no_loss_open 1 (1 / Real.log 2) one_pos
  have h2 : ¬ maxStake c5market.risk_cap c5market.b c5market.q_T c5market.q_F <
      (1 / 4 : ℝ) := not_lt.mpr (le_trans (by norm_num) maxStake_fresh_ge)
  exact ⟨h1, h2, C5_expected_cashout_shares c5market Side.YES (1 / 4) h1 h2⟩

/-- Explicit form of an accepted YES buy in fixed_cap.py. -/
lemma FCbuy_accepted_yes (s : FCState) (stake : ℝ)
    (h1 : ¬ s.risk_cap - (cost s.b s.q_T s.q_F - cost s.b 0 0) ≤ 0)
    (h2 : ¬ maxStake s.risk_cap s.b s.q_T s.q_F < stake) :
    FCbuy s Side.YES stake =
      ({ contract_id := s.contract_id, stake := stake,
         price := round_figure (priceYes s.b
           (s.q_T + s.b * Real.log (1 + stake / (s.b * priceYes s.b s.q_T s.q_F)))
           s.q_F),
         expected_cashout := round_figure (stake / priceYes s.b
           (s.q_T + s.b * Real.log (1 + stake / (s.b * priceYes s.b s.q_T s.q_F)))
           s.q_F),
         side := Side.YES, fees := s.fees },
       { s with
          q_T := s.q_T + s.b * Real.log (1 + stake / (s.b * priceYes s.b s.q_T s.q_F))
          expected_yes_cashout := s.expected_yes_cashout + round_figure (stake /
            priceYes s.b (s.q_T + s.b * Real.log (1 + stake /
              (s.b * priceYes s.b s.q_T s.q_F))) s.q_F)
          yes_deposits := s.yes_deposits + stake
          order_history := s.order_history ++
            [{ contract_id := s.contract_id, stake := stake,
               price := priceYes s.b (s.q_T + s.b * Real.log (1 + stake /
                 (s.b * priceYes s.b s.q_T s.q_F))) s.q_F,
               expected_cashout := round_figure (stake / priceYes s.b
                 (s.q_T + s.b * Real.log (1 + stake /
                   (s.b * priceYes s.b s.q_T s.q_F))) s.q_F),
               side := Side.YES, fees := s.fees }] }) := by
  rw [FCbuy, if_neg h1, if_neg h2]
  rfl

/-- Fresh fixed_cap.py market with risk_cap = 1. -/
noncomputable def c5fc : FCState := mkFCContract 5 "m" 1 0 0 2

/-- C5 counterexample to the claim as stated: in the fixed_cap.py variant
(cited by the claim), the recorded expected_cashout of an accepted buy of
stake 0.7 on a fresh risk_cap = 1 market is round2(stake / post-price) =
1.06, while the share delta actually added to q_yes is below 1 — the two
conventions disagree on this input. -/
theorem C5_counterexample :
    (FCbuy c5fc Side.YES (7 / 10)).1.expected_cashout ≠
      (FCbuy c5fc Side.YES (7 / 10)).2.q_T - c5fc.q_T := by
  have hL9a := Real.log_two_gt_d9
  have hL9b := Real.log_two_lt_d9
  have hL0 : (0 : ℝ) < Real.log 2 := log2_pos
  have hLne : Real.log 2 ≠ 0 := ne_of_gt hL0
  have h1 : ¬ c5fc.risk_cap - (cost c5fc.b c5fc.q_T c5fc.q_F -
      cost c5fc.b 0 0) ≤ 0 := no_loss_open 1 (1 / Real.log 2) one_pos
  have h2 : ¬ maxStake c5fc.risk_cap c5fc.b c5fc.q_T c5fc.q_F < (7 / 10 : ℝ) :=
    not_lt.mpr (le_trans (by norm_num) maxStake_fresh_ge)
  rw [FCbuy_accepted_yes c5fc (7 / 10) h1 h2]
  show round_figure ((7 / 10) / priceYes c5fc.b
      (c5fc.q_T + c5fc.b * Real.log (1 + (7 / 10) /
        (c5fc.b * priceYes c5fc.b c5fc.q_T c5fc.q_F))) c5fc.q_F) ≠
    c5fc.q_T + c5fc.b * Real.log (1 + (7 / 10) /
      (c5fc.b * priceYes c5fc.b c5fc.q_T c5fc.q_F)) - c5fc.q_T
  have hq : c5fc.q_T = 0 := rfl
  have hqF : c5fc.q_F = 0 := rfl
  have hb : c5fc.b = 1 / Real.log 2 := rfl
  rw [hq, hqF, hb, priceYes_diag (1 / Real.log 2) 0]
  have harg : (7 / 10 : ℝ) / (1 / Real.log 2 * (1 / 2)) = 7 / 5 * Real.log 2 := by
    field_simp
    ring
  rw [harg, zero_add, sub_zero]
  have ht0 : (0 : ℝ) < 1 + 7 / 5 * Real.log 2 := by nlinarith
  have ht1 : (1.97040605 : ℝ) < 1 + 7 / 5 * Real.log 2 := by nlinarith
  have ht2 : (1 + 7 / 5 * Real.log 2 : ℝ) < 1.9704061 := by nlinarith
  have hdiv : (1 / Real.log 2 * Real.log (1 + 7 / 5 * Real.log 2)) / (1 / Real.log 2) =
      Real.log (1 + 7 / 5 * Real.log 2) :=
    mul_div_cancel_left₀ _ (ne_of_gt b1_pos)
  have hpost : priceYes (1 / Real.log 2)
      (1 / Real.log 2 * Real.log (1 + 7 / 5 * Real.log 2)) 0 =
      (1 + 7 / 5 * Real.log 2) / (1 + 7 / 5 * Real.log 2 + 1) := by
    rw [priceYes_eq, hdiv, Real.exp_log ht0, zero_div, Real.exp_zero]
  rw [hpost]
  have hδ : 1 / Real.log 2 * Real.log (1 + 7 / 5 * Real.log 2) < 1 := by
    have hlt : Real.log (1 + 7 / 5 * Real.log 2) < Real.log 2 :=
      Real.log_lt_log ht0 (by nlinarith)
    have := mul_lt_mul_of_pos_left hlt b1_pos
    rw [one_div, inv_mul_cancel₀ hLne] at this
    rw [one_div]
    exact this
  have hval : (7 / 10 : ℝ) / ((1 + 7 / 5 * Real.log 2) / (1 + 7 / 5 * Real.log 2 + 1)) *
      100 = 70 + 70 / (1 + 7 / 5 * Real.log 2) := by
    field_simp
    ring
  have hround : round ((7 / 10 : ℝ) / ((1 + 7 / 5 * Real.log 2) /
      (1 + 7 / 5 * Real.log 2 + 1)) * 100) = 106 := by
    rw [hval, round_eq]
    apply Int.floor_eq_iff.mpr
    constructor
    · have h70 : (35.5 : ℝ) ≤ 70 / (1 + 7 / 5 * Real.log 2) := by
        rw [le_div_iff ht0]
        nlinarith
      push_cast
      linarith
    · have h70 : (70 : ℝ) / (1 + 7 / 5 * Real.log 2) < 36.5 := by
        rw [div_lt_iff ht0]
        nlinarith
      push_cast
      linarith
  apply ne_of_gt
  rw [round_figure, hround]
  push_cast
  linarith

/- ------------------------------------------------------------------ -/
/- Claim C9.                                                           -/
/- ------------------------------------------------------------------ -/

/-- C9 (amended): in strict_profit.py, whenever q_yes + q_no exceeds the
code's threshold 1e-6 (not merely 0), the skewed YES price is
clamp(price_yes_raw - skew_factor * imbalance, 0.01, 0.99), the NO price
is its complement, both lie in [0.01, 0.99], and they sum to 1; on any
state with q_yes + q_no ≤ 1e-6 — in particular on the whole band
0 < q_yes + q_no ≤ 1e-6 that the original claim puts in the skew regime —
the raw price pair is returned unskewed; and at q_yes = q_no = 0 the raw
pair is returned. -/
theorem C9_skew_price (s : SPState) (h : 1 / 1000000 < s.q_T + s.q_F) :
    (SPprice s).1 = max 0.01 (min 0.99 (priceYes s.b s.q_T s.q_F -
      s.skew_factor * ((s.q_T - s.q_F) / (s.q_T + s.q_F)))) ∧
    (SPprice s).2 = 1 - (SPprice s).1 ∧
    0.01 ≤ (SPprice s).1 ∧ (SPprice s).1 ≤ 0.99 ∧
    0.01 ≤ (SPprice s).2 ∧ (SPprice s).2 ≤ 0.99 ∧
    (SPprice s).1 + (SPprice s).2 = 1 ∧
    (∀ s₀ : SPState, s₀.q_T + s₀.q_F ≤ 1 / 1000000 →
      SPprice s₀ = (priceYes s₀.b s₀.q_T s₀.q_F,
        1 - priceYes s₀.b s₀.q_T s₀.q_F)) ∧
    (∀ s₀ : SPState, s₀.q_T = 0 → s₀.q_F = 0 →
      SPprice s₀ = (priceYes s₀.b s₀.q_T s₀.q_F,
        1 - priceYes s₀.b s₀.q_T s₀.q_F)) := by
  have hfst : (SPprice s).1 = max 0.01 (min 0.99 (priceYes s.b s.q_T s.q_F -
      s.skew_factor * ((s.q_T - s.q_F) / (s.q_T + s.q_F)))) := by
    rw [SPprice, if_pos h]
  have hsnd : (SPprice s).2 = 1 - (SPprice s).1 := by
    rw [SPprice, if_pos h]
  have hlow : (0.01 : ℝ) ≤ (SPprice s).1 := by
    rw [hfst]
    exact le_max_left _ _
  have hhigh : (SPprice s).1 ≤ 0.99 := by
    rw [hfst]
    exact max_le (by norm_num) (min_le_left _ _)
  have hbelow : ∀ s₀ : SPState, s₀.q_T + s₀.q_F ≤ 1 / 1000000 →
      SPprice s₀ = (priceYes s₀.b s₀.q_T s₀.q_F,
        1 - priceYes s₀.b s₀.q_T s₀.q_F) := by
    intro s₀ h0
    rw [SPprice, if_neg (not_lt.mpr h0)]
  refine ⟨hfst, hsnd, hlow, hhigh, by rw [hsnd]; linarith, by rw [hsnd]; linarith,
    by rw [hsnd]; ring, hbelow, ?_⟩
  intro s₀ h0T h0F
  exact hbelow s₀ (by rw [h0T, h0F]; norm_num)

/-- A strict_profit.py market above the skew threshold. -/
noncomputable def c9wit : SPState where
  contract_id := 9
  name := "w"
  risk_cap := 1
  q_T := 1
  q_F := 1
  fee_rate := 0.02
  skew_factor := 0.01
  b := 1 / Real.log 2

/-- Witness for C9 above the threshold. -/
theorem C9_witness :
    ((1 : ℝ) / 1000000 < c9wit.q_T + c9wit.q_F) ∧
    ((SPprice c9wit).1 = max 0.01 (min 0.99 (priceYes c9wit.b c9wit.q_T c9wit.q_F -
      c9wit.skew_factor * ((c9wit.q_T - c9wit.q_F) / (c9wit.q_T + c9wit.q_F)))) ∧
    (SPprice c9wit).2 = 1 - (SPprice c9wit).1 ∧
    0.01 ≤ (SPprice c9wit).1 ∧ (SPprice c9wit).1 ≤ 0.99 ∧
    0.01 ≤ (SPprice c9wit).2 ∧ (SPprice c9wit).2 ≤ 0.99 ∧
    (SPprice c9wit).1 + (SPprice c9wit).2 = 1 ∧
    (∀ s₀ : SPState, s₀.q_T + s₀.q_F ≤ 1 / 1000000 →
      SPprice s₀ = (priceYes s₀.b s₀.q_T s₀.q_F,
        1 - priceYes s₀.b s₀.q_T s₀.q_F)) ∧
    (∀ s₀ : SPState, s₀.q_T = 0 → s₀.q_F = 0 →
      SPprice s₀ = (priceYes s₀.b s₀.q_T s₀.q_F,
        1 - priceYes s₀.b s₀.q_T s₀.q_F))) := by
  have h : (1 : ℝ) / 1000000 < c9wit.q_T + c9wit.q_F := by
    show (1 : ℝ) / 1000000 < 1 + 1
    norm_num
  exact ⟨h, C9_skew_price c9wit h⟩

/-- A strict_profit.py market with 0 < q_yes + q_no ≤ 1e-6. -/
noncomputable def c9state : SPState where
  contract_id := 9
  name := "c"
  risk_cap := 1
  q_T := 1 / 2 ^ 30
  q_F := 0
  fee_rate := 0.02
  skew_factor := 0.01
  b := 1 / Real.log 2

/-- C9 counterexample to the claim as stated: at q_yes = 2⁻³⁰ > 0,
q_no = 0 the code's threshold test q_yes + q_no > 1e-6 fails, so the raw
price is returned, while the claimed formula gives the clamped
raw - skew_factor * 1 = raw - 0.01. -/
theorem C9_counterexample :
    (SPprice c9state).1 ≠ max 0.01 (min 0.99 (priceYes c9state.b c9state.q_T
      c9state.q_F - c9state.skew_factor *
        ((c9state.q_T - c9state.q_F) / (c9state.q_T + c9state.q_F)))) := by
  have hq : c9state.q_T = 1 / 2 ^ 30 := rfl
  have hqF : c9state.q_F = 0 := rfl
  have hb : c9state.b = 1 / Real.log 2 := rfl
  have hskew : c9state.skew_factor = 0.01 := rfl
  have hL9b := Real.log_two_lt_d9
  have hcond : ¬ (1 / 1000000 : ℝ) < c9state.q_T + c9state.q_F := by
    rw [hq, hqF]
    norm_num
  have hfst : (SPprice c9state).1 = priceYes c9state.b c9state.q_T c9state.q_F := by
    rw [SPprice, if_neg hcond]
  have hc : (1 / 2 ^ 30 : ℝ) / (1 / Real.log 2) = Real.log 2 / 2 ^ 30 := by
    field_simp
  have hc0 : (0 : ℝ) ≤ Real.log 2 / 2 ^ 30 := by positivity
  have hc1 : Real.log 2 / 2 ^ 30 < 1 := by nlinarith
  have hA1 : 1 ≤ Real.exp (Real.log 2 / 2 ^ 30) := by
    calc (1 : ℝ) = Real.exp 0 := Real.exp_zero.symm
    _ ≤ Real.exp (Real.log 2 / 2 ^ 30) := Real.exp_le_exp.mpr hc0
  have hA2 : Real.exp (Real.log 2 / 2 ^ 30) < 51 / 49 := by
    have hinv := exp_le_inv_one_sub (Real.log 2 / 2 ^ 30) hc0 hc1
    have hbound : (1 : ℝ) / (1 - Real.log 2 / 2 ^ 30) < 51 / 49 := by
      rw [div_lt_div_iff (by nlinarith) (by norm_num)]
      nlinarith
    linarith
  have hpY : priceYes c9state.b c9state.q_T c9state.q_F =
      Real.exp (Real.log 2 / 2 ^ 30) / (Real.exp (Real.log 2 / 2 ^ 30) + 1) := by
    rw [hb, hq, hqF, priceYes_eq, hc, zero_div, Real.exp_zero]
  have hApos : (0 : ℝ) < Real.exp (Real.log 2 / 2 ^ 30) + 1 := by positivity
  have hraw1 : (1 / 2 : ℝ) ≤ Real.exp (Real.log 2 / 2 ^ 30) /
      (Real.exp (Real.log 2 / 2 ^ 30) + 1) := by
    rw [le_div_iff hApos]
    linarith
  have hraw2 : Real.exp (Real.log 2 / 2 ^ 30) /
      (Real.exp (Real.log 2 / 2 ^ 30) + 1) < 51 / 100 := by
    rw [div_lt_iff hApos]
    nlinarith
  have him : ((c9state.q_T - c9state.q_F) / (c9state.q_T + c9state.q_F)) = 1 := by
    rw [hq, hqF]
    norm_num
  rw [hfst, hpY, him, hskew, mul_one]
  have hmin : min 0.99 (Real.exp (Real.log 2 / 2 ^ 30) /
      (Real.exp (Real.log 2 / 2 ^ 30) + 1) - 0.01) =
      Real.exp (Real.log 2 / 2 ^ 30) / (Real.exp (Real.log 2 / 2 ^ 30) + 1) - 0.01 :=
    min_eq_right (by linarith)
  have hmax : max 0.01 (Real.exp (Real.log 2 / 2 ^ 30) /
      (Real.exp (Real.log 2 / 2 ^ 30) + 1) - 0.01) =
      Real.exp (Real.log 2 / 2 ^ 30) / (Real.exp (Real.log 2 / 2 ^ 30) + 1) - 0.01 :=
    max_eq_right (by linarith)
  rw [hmin, hmax]
  intro hcontra
  linarith [hcontra]

/- ------------------------------------------------------------------ -/
/- Claim C3.                                                           -/
/- ------------------------------------------------------------------ -/

/-- Fresh lmsr.py market with risk_cap = 1 and a 50% fee. -/
noncomputable def c3s : MState := mkContract 3 "m" 1 0 0 50

/-- C3: the code violates the claim — evaluating lmsr.py's sell at the
failing input (fresh risk_cap = 1 market with 50% fee, sell YES 0.5): the
solver's dq exceeds the outstanding q_yes = 0, the no-shorting branch
rejects the order by returning None, yet total_fees_collected has already
been incremented by gross * fee_rate = 0.5 before the check — a rejected
sell is not atomic. -/
theorem C3_sell_noshort_mutates_fees :
    (sell c3s Side.YES (1 / 2)).1 = none ∧
    (sell c3s Side.YES (1 / 2)).2.total_fees_collected = 1 / 2 ∧
    c3s.total_fees_collected = 0 := by
  have hLne : Real.log 2 ≠ 0 := ne_of_gt log2_pos
  have hfee : c3s.fee_rate = 1 / 2 := by
    show (50 : ℝ) / 100 = 1 / 2
    norm_num
  have hgross : (1 / 2 : ℝ) / (1 - c3s.fee_rate) = 1 := by
    rw [hfee]
    norm_num
  have h1 : ¬ c3s.risk_cap - (cost c3s.b c3s.q_T c3s.q_F - cost c3s.b 0 0) ≤ 0 :=
    no_loss_open 1 (1 / Real.log 2) one_pos
  have h2 : ¬ maxStake c3s.risk_cap c3s.b c3s.q_T c3s.q_F < (1 / 2 : ℝ) :=
    not_lt.mpr (le_trans (by norm_num) maxStake_fresh_ge)
  have h000 : cost (1 / Real.log 2) 0 0 = 1 := by
    rw [cost_zero_zero, one_div, inv_mul_cancel₀ hLne]
  have hpos : ∀ x : ℝ, 0 < cost (1 / Real.log 2) (0 - x) 0 := by
    intro x
    rw [cost_eq]
    apply mul_pos b1_pos
    apply Real.log_pos
    rw [zero_div, Real.exp_zero]
    have := Real.exp_pos ((0 - x) / (1 / Real.log 2))
    linarith
  have hfall : ∀ x, (fun dq => cost c3s.b c3s.q_T c3s.q_F -
      cost c3s.b (c3s.q_T - dq) c3s.q_F) x < (1 / 2 : ℝ) / (1 - c3s.fee_rate) := by
    intro x
    rw [hgross]
    show cost (1 / Real.log 2) 0 0 - cost (1 / Real.log 2) (0 - x) 0 < 1
    rw [h000]
    linarith [hpos x]
  have h3 : c3s.q_T + 1 / 1000000000 <
      solveDq (fun dq => cost c3s.b c3s.q_T c3s.q_F -
        cost c3s.b (c3s.q_T - dq) c3s.q_F)
        ((1 / 2 : ℝ) / (1 - c3s.fee_rate))
        (max 1 ((1 / 2 : ℝ) / (1 - c3s.fee_rate) * 2)) := by
    rw [solveDq_all_lt _ _ _ hfall, hgross]
    have hm : max (1 : ℝ) (1 * 2) = 2 := by
      rw [show (1 : ℝ) * 2 = 2 by norm_num]
      exact max_eq_right (by norm_num)
    rw [hm]
    show (0 : ℝ) + 1 / 1000000000 < _
    norm_num
  rw [sell_noshort_yes c3s (1 / 2) h1 h2 h3]
  refine ⟨rfl, ?_, rfl⟩
  show c3s.total_fees_collected + 1 / 2 / (1 - c3s.fee_rate) * c3s.fee_rate = 1 / 2
  rw [hgross, hfee]
  show (0 : ℝ) + 1 * (1 / 2) = 1 / 2
  norm_num

/- ------------------------------------------------------------------ -/
/- Claim C1.                                                           -/
/- ------------------------------------------------------------------ -/

/-- Division by 1 / log 2 is multiplication by log 2. -/
lemma div_one_div_log (a : ℝ) : a / (1 / Real.log 2) = a * Real.log 2 := by
  rw [div_div_eq_mul_div, div_one]

/-- C8 (amended): max_stake returns exactly 0 whenever the remaining risk
budget R = risk_cap - (cost(q_yes, q_no) - cost(0,0)) is ≤ 0; and for
0 < R ≤ 1 it is sandwiched between
b * price_yes * (exp((R ∓ 2⁻⁶¹) / b) - 1), i.e. it tracks the remaining
budget to within the bisection tolerance, scaled by the current YES
price.  It is NOT non-increasing in the loss across states, because of
that price factor, as the counterexample for this claim shows. -/
theorem C8_max_stake_budget (risk_cap b qT qF : ℝ) (hb : 0 < b)
    (hR1 : risk_cap - (cost b qT qF - cost b 0 0) ≤ 1) :
    (risk_cap - (cost b qT qF - cost b 0 0) ≤ 0 →
      maxStake risk_cap b qT qF = 0) ∧
    (0 < risk_cap - (cost b qT qF - cost b 0 0) →
      b * priceYes b qT qF *
        (Real.exp ((risk_cap - (cost b qT qF - cost b 0 0) - 1 / 2 ^ 61) / b) - 1) ≤
        maxStake risk_cap b qT qF ∧
      maxStake risk_cap b qT qF ≤
        b * priceYes b qT qF *
          (Real.exp ((risk_cap - (cost b qT qF - cost b 0 0) + 1 / 2 ^ 61) / b)
            - 1)) := by
  constructor
  · exact maxStake_of_nonpos risk_cap b qT qF
  · intro hRpos
    have h1 : ¬ risk_cap - (cost b qT qF - cost b 0 0) ≤ 0 := not_le.mpr hRpos
    have hdq := solveDq_id_approx (risk_cap - (cost b qT qF - cost b 0 0)) hRpos hR1
    have hbp : 0 ≤ b * priceYes b qT qF :=
      le_of_lt (mul_pos hb (priceYes_pos b qT qF))
    rw [maxStake_eq risk_cap b qT qF (ne_of_gt hb) h1]
    constructor
    · have e1 : (risk_cap - (cost b qT qF - cost b 0 0) - 1 / 2 ^ 61) / b ≤
          solveDq (fun x : ℝ => x) (risk_cap - (cost b qT qF - cost b 0 0)) 1 / b :=
        (div_le_div_right hb).mpr hdq.1
      exact mul_le_mul_of_nonneg_left
        (sub_le_sub_right (Real.exp_le_exp.mpr e1) 1) hbp
    · have e2 : solveDq (fun x : ℝ => x) (risk_cap - (cost b qT qF - cost b 0 0)) 1
          / b ≤ (risk_cap - (cost b qT qF - cost b 0 0) + 1 / 2 ^ 61) / b :=
        (div_le_div_right hb).mpr (le_of_lt hdq.2)
      exact mul_le_mul_of_nonneg_left
        (sub_le_sub_right (Real.exp_le_exp.mpr e2) 1) hbp

/-- Witness for C8 at a fresh market with risk_cap = 1, b = 1 / log 2. -/
theorem C8_witness :
    (0 : ℝ) < 1 / Real.log 2 ∧
    (1 : ℝ) - (cost (1 / Real.log 2) 0 0 - cost (1 / Real.log 2) 0 0) ≤ 1 ∧
    (((1 : ℝ) - (cost (1 / Real.log 2) 0 0 - cost (1 / Real.log 2) 0 0) ≤ 0 →
      maxStake 1 (1 / Real.log 2) 0 0 = 0) ∧
    (0 < (1 : ℝ) - (cost (1 / Real.log 2) 0 0 - cost (1 / Real.log 2) 0 0) →
      1 / Real.log 2 * priceYes (1 / Real.log 2) 0 0 *
        (Real.exp (((1 : ℝ) - (cost (1 / Real.log 2) 0 0 -
          cost (1 / Real.log 2) 0 0) - 1 / 2 ^ 61) / (1 / Real.log 2)) - 1) ≤
        maxStake 1 (1 / Real.log 2) 0 0 ∧
      maxStake 1 (1 / Real.log 2) 0 0 ≤
        1 / Real.log 2 * priceYes (1 / Real.log 2) 0 0 *
          (Real.exp (((1 : ℝ) - (cost (1 / Real.log 2) 0 0 -
            cost (1 / Real.log 2) 0 0) + 1 / 2 ^ 61) / (1 / Real.log 2)) - 1))) := by
  have hR1 : (1 : ℝ) - (cost (1 / Real.log 2) 0 0 - cost (1 / Real.log 2) 0 0) ≤ 1 := by
    rw [sub_self, sub_zero]
  exact ⟨b1_pos, hR1, C8_max_stake_budget 1 (1 / Real.log 2) 0 0 b1_pos hR1⟩

/-- Loss of the balanced inventory (x, x) with x = b * log(3/2): exactly x. -/
lemma c8_loss_balanced :
    cost (1 / Real.log 2) (1 / Real.log 2 * Real.log (3 / 2))
      (1 / Real.log 2 * Real.log (3 / 2)) - cost (1 / Real.log 2) 0 0 =
      1 / Real.log 2 * Real.log (3 / 2) := by
  have h := cost_shift (1 / Real.log 2) 0 0 (1 / Real.log 2 * Real.log (3 / 2))
    (ne_of_gt b1_pos)
  rw [zero_add] at h
  rw [h]
  ring

/-- Loss of the skewed inventory (b * log(203/100), 0):
b * log(303/100) - 1. -/
lemma c8_loss_skewed :
    cost (1 / Real.log 2) (1 / Real.log 2 * Real.log (203 / 100)) 0 -
      cost (1 / Real.log 2) 0 0 =
      1 / Real.log 2 * Real.log (303 / 100) - 1 := by
  have h1 : cost (1 / Real.log 2) (1 / Real.log 2 * Real.log (203 / 100)) 0 =
      1 / Real.log 2 * Real.log (303 / 100) := by
    rw [cost_eq, mul_div_cancel_left₀ _ (ne_of_gt b1_pos),
      Real.exp_log (by norm_num : (0 : ℝ) < 203 / 100), zero_div, Real.exp_zero]
    norm_num
  have h2 : cost (1 / Real.log 2) 0 0 = 1 := by
    rw [cost_zero_zero, one_div, inv_mul_cancel₀ (ne_of_gt log2_pos)]
  rw [h1, h2]

/-- The skewed state carries strictly more loss than the balanced one. -/
lemma c8_loss_lt :
    cost (1 / Real.log 2) (1 / Real.log 2 * Real.log (3 / 2))
      (1 / Real.log 2 * Real.log (3 / 2)) - cost (1 / Real.log 2) 0 0 <
    cost (1 / Real.log 2) (1 / Real.log 2 * Real.log (203 / 100)) 0 -
      cost (1 / Real.log 2) 0 0 := by
  rw [c8_loss_balanced, c8_loss_skewed]
  have hsum : Real.log (3 / 2) + Real.log 2 = Real.log 3 := by
    rw [← Real.log_mul (by norm_num) (by norm_num)]
    norm_num
  have hlt : Real.log 3 < Real.log (303 / 100) :=
    Real.log_lt_log (by norm_num) (by norm_num)
  have hbL : 1 / Real.log 2 * Real.log 2 = 1 :=
    one_div_mul_cancel (ne_of_gt log2_pos)
  nlinarith [mul_lt_mul_of_pos_left
    (show Real.log (3 / 2) + Real.log 2 < Real.log (303 / 100) by linarith) b1_pos]

set_option maxHeartbeats 1600000 in
/-- Upper bound on max_stake at the balanced state. -/
lemma c8_max_balanced_le :
    maxStake 1 (1 / Real.log 2) (1 / Real.log 2 * Real.log (3 / 2))
      (1 / Real.log 2 * Real.log (3 / 2)) ≤ 0.2405 := by
  have hL9a := Real.log_two_gt_d9
  have hL9b := Real.log_two_lt_d9
  have hB := b1_pos
  have h32a : (0 : ℝ) ≤ Real.log (3 / 2) := Real.log_nonneg (by norm_num)
  have h32b : Real.log (3 / 2) < Real.log 2 :=
    Real.log_lt_log (by norm_num) (by norm_num)
  have hbL : 1 / Real.log 2 * Real.log 2 = 1 :=
    one_div_mul_cancel (ne_of_gt log2_pos)
  have hRpos' : 0 < 1 - 1 / Real.log 2 * Real.log (3 / 2) := by
    nlinarith [mul_lt_mul_of_pos_left h32b hB]
  have hR1' : 1 - 1 / Real.log 2 * Real.log (3 / 2) ≤ 1 := by
    nlinarith [mul_nonneg (le_of_lt hB) h32a]
  have hRpos : 0 < 1 - (cost (1 / Real.log 2) (1 / Real.log 2 * Real.log (3 / 2))
      (1 / Real.log 2 * Real.log (3 / 2)) - cost (1 / Real.log 2) 0 0) := by
    rw [c8_loss_balanced]
    exact hRpos'
  have hdq := solveDq_id_approx (1 - 1 / Real.log 2 * Real.log (3 / 2)) hRpos' hR1'
  rw [maxStake_eq 1 (1 / Real.log 2) _ _ (ne_of_gt hB) (not_le.mpr hRpos),
    c8_loss_balanced, priceYes_diag, div_one_div_log]
  have hRL : (1 - 1 / Real.log 2 * Real.log (3 / 2) + 1 / 2 ^ 61) * Real.log 2 =
      Real.log 2 - Real.log (3 / 2) + Real.log 2 / 2 ^ 61 := by
    field_simp
    ring
  have hdqL : solveDq (fun x : ℝ => x) (1 - 1 / Real.log 2 * Real.log (3 / 2)) 1 *
      Real.log 2 ≤ Real.log 2 - Real.log (3 / 2) + Real.log 2 / 2 ^ 61 := by
    rw [← hRL]
    exact mul_le_mul_of_nonneg_right (le_of_lt hdq.2) (le_of_lt log2_pos)
  have hlog43 : Real.log 2 - Real.log (3 / 2) = Real.log (4 / 3) := by
    rw [← Real.log_div (by norm_num) (by norm_num)]
    norm_num
  have hsplit : Real.exp (Real.log 2 - Real.log (3 / 2) + Real.log 2 / 2 ^ 61) =
      4 / 3 * Real.exp (Real.log 2 / 2 ^ 61) := by
    rw [Real.exp_add, hlog43, Real.exp_log (by norm_num : (0 : ℝ) < 4 / 3)]
  have hsmall : Real.exp (Real.log 2 / 2 ^ 61) ≤ 1 + 1 / 2 ^ 59 := by
    have hd0 : (0 : ℝ) ≤ Real.log 2 / 2 ^ 61 := by positivity
    have hd1 : Real.log 2 / 2 ^ 61 < 1 := by nlinarith
    have h1 := exp_le_inv_one_sub (Real.log 2 / 2 ^ 61) hd0 hd1
    have h2 : (1 : ℝ) / (1 - Real.log 2 / 2 ^ 61) ≤ 1 + 1 / 2 ^ 59 := by
      rw [div_le_iff (by nlinarith)]
      nlinarith
    linarith
  have hE : Real.exp (solveDq (fun x : ℝ => x)
      (1 - 1 / Real.log 2 * Real.log (3 / 2)) 1 * Real.log 2) ≤
      4 / 3 * (1 + 1 / 2 ^ 59) := by
    calc Real.exp (solveDq (fun x : ℝ => x)
        (1 - 1 / Real.log 2 * Real.log (3 / 2)) 1 * Real.log 2) ≤
        Real.exp (Real.log 2 - Real.log (3 / 2) + Real.log 2 / 2 ^ 61) :=
          Real.exp_le_exp.mpr hdqL
    _ = 4 / 3 * Real.exp (Real.log 2 / 2 ^ 61) := hsplit
    _ ≤ 4 / 3 * (1 + 1 / 2 ^ 59) := by nlinarith [hsmall]
  have hinvL : 1 / Real.log 2 ≤ 1.4427 := by
    rw [div_le_iff log2_pos]
    nlinarith
  have hE1 : Real.exp (solveDq (fun x : ℝ => x)
      (1 - 1 / Real.log 2 * Real.log (3 / 2)) 1 * Real.log 2) - 1 ≤ 0.33334 := by
    nlinarith [hE]
  calc 1 / Real.log 2 * (1 / 2) * (Real.exp (solveDq (fun x : ℝ => x)
      (1 - 1 / Real.log 2 * Real.log (3 / 2)) 1 * Real.log 2) - 1) ≤
      1 / Real.log 2 * (1 / 2) * 0.33334 :=
        mul_le_mul_of_nonneg_left hE1 (by positivity)
  _ ≤ 1.4427 * (1 / 2) * 0.33334 := by nlinarith [hinvL]
  _ ≤ 0.2405 := by norm_num

set_option maxHeartbeats 1600000 in
/-- Lower bound on max_stake at the skewed, higher-loss state. -/
lemma c8_max_skewed_ge :
    (0.2406 : ℝ) ≤
      maxStake 1 (1 / Real.log 2) (1 / Real.log 2 * Real.log (203 / 100)) 0 := by
  have hL9a := Real.log_two_gt_d9
  have hL9b := Real.log_two_lt_d9
  have hB := b1_pos
  have hbL : 1 / Real.log 2 * Real.log 2 = 1 :=
    one_div_mul_cancel (ne_of_gt log2_pos)
  have hlog4 : Real.log 4 = 2 * Real.log 2 := by
    rw [show (4 : ℝ) = 2 ^ 2 by norm_num, Real.log_pow]
    push_cast
    ring
  have h303u : Real.log (303 / 100) < Real.log 4 :=
    Real.log_lt_log (by norm_num) (by norm_num)
  have h303l : Real.log 2 < Real.log (303 / 100) :=
    Real.log_lt_log (by norm_num) (by norm_num)
  have hRpos' : 0 < 1 - (1 / Real.log 2 * Real.log (303 / 100) - 1) := by
    nlinarith [mul_lt_mul_of_pos_left
      (show Real.log (303 / 100) < 2 * Real.log 2 by linarith) hB]
  have hR1' : 1 - (1 / Real.log 2 * Real.log (303 / 100) - 1) ≤ 1 := by
    nlinarith [mul_lt_mul_of_pos_left h303l hB]
  have hRpos : 0 < 1 - (cost (1 / Real.log 2)
      (1 / Real.log 2 * Real.log (203 / 100)) 0 - cost (1 / Real.log 2) 0 0) := by
    rw [c8_loss_skewed]
    exact hRpos'
  have hdq := solveDq_id_approx (1 - (1 / Real.log 2 * Real.log (303 / 100) - 1))
    hRpos' hR1'
  have hp2 : priceYes (1 / Real.log 2) (1 / Real.log 2 * Real.log (203 / 100)) 0 =
      203 / 303 := by
    rw [priceYes_eq, mul_div_cancel_left₀ _ (ne_of_gt b1_pos),
      Real.exp_log (by norm_num : (0 : ℝ) < 203 / 100), zero_div, Real.exp_zero]
    norm_num
  rw [maxStake_eq 1 (1 / Real.log 2) _ _ (ne_of_gt hB) (not_le.mpr hRpos),
    c8_loss_skewed, hp2, div_one_div_log]
  have hRL : (1 - (1 / Real.log 2 * Real.log (303 / 100) - 1) - 1 / 2 ^ 61) *
      Real.log 2 = 2 * Real.log 2 - Real.log (303 / 100) - Real.log 2 / 2 ^ 61 := by
    field_simp
    ring
  have hdqL : 2 * Real.log 2 - Real.log (303 / 100) - Real.log 2 / 2 ^ 61 ≤
      solveDq (fun x : ℝ => x) (1 - (1 / Real.log 2 * Real.log (303 / 100) - 1)) 1 *
        Real.log 2 := by
    rw [← hRL]
    exact mul_le_mul_of_nonneg_right hdq.1 (le_of_lt log2_pos)
  have hlog400 : 2 * Real.log 2 - Real.log (303 / 100) = Real.log (400 / 303) := by
    rw [← hlog4, ← Real.log_div (by norm_num) (by norm_num)]
    norm_num
  have hsplit : Real.exp (2 * Real.log 2 - Real.log (303 / 100) -
      Real.log 2 / 2 ^ 61) = 400 / 303 * Real.exp (-(Real.log 2 / 2 ^ 61)) := by
    rw [sub_eq_add_neg (2 * Real.log 2 - Real.log (303 / 100)), Real.exp_add,
      hlog400, Real.exp_log (by norm_num : (0 : ℝ) < 400 / 303)]
  have hsmall : 1 - Real.log 2 / 2 ^ 61 ≤ Real.exp (-(Real.log 2 / 2 ^ 61)) := by
    have := Real.add_one_le_exp (-(Real.log 2 / 2 ^ 61))
    linarith
  have hE : 400 / 303 * (1 - Real.log 2 / 2 ^ 61) ≤
      Real.exp (solveDq (fun x : ℝ => x)
        (1 - (1 / Real.log 2 * Real.log (303 / 100) - 1)) 1 * Real.log 2) := by
    calc (400 : ℝ) / 303 * (1 - Real.log 2 / 2 ^ 61) ≤
        400 / 303 * Real.exp (-(Real.log 2 / 2 ^ 61)) := by nlinarith [hsmall]
    _ = Real.exp (2 * Real.log 2 - Real.log (303 / 100) - Real.log 2 / 2 ^ 61) :=
        hsplit.symm
    _ ≤ Real.exp (solveDq (fun x : ℝ => x)
        (1 - (1 / Real.log 2 * Real.log (303 / 100) - 1)) 1 * Real.log 2) :=
        Real.exp_le_exp.mpr hdqL
  have hE1 : (0.32 : ℝ) ≤ Real.exp (solveDq (fun x : ℝ => x)
      (1 - (1 / Real.log 2 * Real.log (303 / 100) - 1)) 1 * Real.log 2) - 1 := by
    nlinarith [hE, hL9b]
  have hinvL2 : (1.4426 : ℝ) ≤ 1 / Real.log 2 := by
    rw [le_div_iff log2_pos]
    nlinarith
  calc (0.2406 : ℝ) ≤ 1.4426 * (203 / 303) * 0.32 := by norm_num
  _ ≤ 1 / Real.log 2 * (203 / 303) * 0.32 := by nlinarith [hinvL2]
  _ ≤ 1 / Real.log 2 * (203 / 303) * (Real.exp (solveDq (fun x : ℝ => x)
      (1 - (1 / Real.log 2 * Real.log (303 / 100) - 1)) 1 * Real.log 2) - 1) :=
    mul_le_mul_of_nonneg_left hE1 (by positivity)

/-- C8 counterexample to the claim as stated: the skewed state
(b * log 2.03, 0) has strictly larger current loss than the balanced state
(b * log 1.5, b * log 1.5), yet strictly larger max_stake — max_stake is
not non-increasing in the loss because it also scales with price_yes. -/
theorem C8_counterexample :
    (cost (1 / Real.log 2) (1 / Real.log 2 * Real.log (3 / 2))
      (1 / Real.log 2 * Real.log (3 / 2)) - cost (1 / Real.log 2) 0 0 <
     cost (1 / Real.log 2) (1 / Real.log 2 * Real.log (203 / 100)) 0 -
      cost (1 / Real.log 2) 0 0) ∧
    maxStake 1 (1 / Real.log 2) (1 / Real.log 2 * Real.log (3 / 2))
      (1 / Real.log 2 * Real.log (3 / 2)) <
    maxStake 1 (1 / Real.log 2) (1 / Real.log 2 * Real.log (203 / 100)) 0 :=
  ⟨c8_loss_lt,
   lt_of_le_of_lt c8_max_balanced_le
     (lt_of_lt_of_le (by norm_num) c8_max_skewed_ge)⟩

end QuantLab
